import Mathlib

/-!
# gitlab-mtls: the credential cache and the request director

A shallow embedding of `cmd/proxy/main.go`:

* `generateImpersonationToken` (main.go 208-246), the upstream credential issuer call;
* `getOrGenerateToken` (main.go 170-206), the token cache with generate-on-miss;
* `proxyDirector` (main.go 248-288), the per-request header injection.

Conventions of the embedding.

* Go strings are Lean strings; `[]byte(s)` is the UTF-8 encoding of `s`.
* `time.Time` is an integer count of nanoseconds on one clock; `time.Now()` reads the
  next value of an arbitrary clock sequence `Env.clock` (no monotonicity is assumed unless
  a theorem says so).  The process formats dates in its local zone, a fixed offset
  `Env.zoneOffset`; the upstream reads them on its own calendar, whose offset is a parameter
  of `validUntil`.
* The process-wide variables `tokenCache.items`, `cacheHits`, `cacheMisses` are fields of
  an explicit `World`, passed through every function; the mutex is not modelled (the
  functions are run one at a time).
* Standard-library behaviour that the program only calls is either a field of `Env`
  (`url.Parse`, the HTTP round trip) or a small model written next to its use
  (`encoding/json` decoding into `TokenResponse`, `base64.StdEncoding`,
  `textproto.CanonicalMIMEHeaderKey`, `Time.Format`).
* A Go run-time panic is an explicit outcome (`Outcome.panicked`).
* `log.Printf` output is not modelled.
-/

namespace GitlabMtls

/-! ## Time -/

/-- A `time.Time` instant, in nanoseconds. -/
abbrev Time := Int

/-- The constant `time.Second`, in nanoseconds. -/
def Second : Int := 1000000000

/-- The constant `time.Hour`, in nanoseconds. -/
def Hour : Int := 3600 * Second

/-- Length of a calendar day, in nanoseconds. -/
def Day : Int := 24 * Hour

/-- Proleptic Gregorian (year, month, day) of a day number counted from 1970-01-01. -/
def civilFromDays (z : Int) : Int × Int × Int :=
  let z := z + 719468
  let era := z / 146097
  let doe := z - era * 146097
  let yoe := (doe - doe / 1460 + doe / 36524 - doe / 146096) / 365
  let y := yoe + era * 400
  let doy := doe - (365 * yoe + yoe / 4 - yoe / 100)
  let mp := (5 * doy + 2) / 153
  let d := doy - (153 * mp + 2) / 5 + 1
  let m := if mp < 10 then mp + 3 else mp - 9
  (if m ≤ 2 then y + 1 else y, m, d)

/-- Day number, counted from 1970-01-01, of a proleptic Gregorian (year, month, day). -/
def daysFromCivil (y m d : Int) : Int :=
  let y := if m ≤ 2 then y - 1 else y
  let era := y / 400
  let yoe := y - era * 400
  let mp := if m > 2 then m - 3 else m + 9
  let doy := (153 * mp + 2) / 5 + d - 1
  let doe := yoe * 365 + yoe / 4 - yoe / 100 + doy
  era * 146097 + doe - 719468

/-- The decimal digit character of `k % 10`. -/
def digitChar (k : Nat) : Char := Char.ofNat (48 + k % 10)

/-- The `width` low-order decimal digits of `k`, most significant first. -/
def fixedDigits : Nat → Nat → List Char
  | 0, _ => []
  | w + 1, k => fixedDigits w (k / 10) ++ [digitChar k]

/-- Decimal rendering of `n`, left-padded with zeros to `width` digits (sign first). -/
def zeroPad (width : Nat) (n : Int) : String :=
  String.mk ((if n < 0 then ['-'] else [])
    ++ (if n.natAbs < 10 ^ width then fixedDigits width n.natAbs
        else (toString n.natAbs).toList))

/-- The layout `"2006-01-02"` applied to a day number: `YYYY-MM-DD`. -/
def formatDay (day : Int) : String :=
  let (y, m, d) := civilFromDays day
  zeroPad 4 y ++ "-" ++ zeroPad 2 m ++ "-" ++ zeroPad 2 d

/-- The value of a decimal digit character. -/
def digitVal (c : Char) : Option Int :=
  if c.isDigit then some ((c.toNat - 48 : Nat) : Int) else none

/-- The day number that a date text `YYYY-MM-DD` names, as its receiver reads it; `none` when
the text does not have that shape. -/
def parseDate (s : String) : Option Int :=
  match s.toList with
  | [y3, y2, y1, y0, s1, m1, m0, s2, d1, d0] =>
    match digitVal y3, digitVal y2, digitVal y1, digitVal y0,
      digitVal m1, digitVal m0, digitVal d1, digitVal d0 with
    | some a, some b, some c, some d, some e, some f, some g, some h =>
      let y := a * 1000 + b * 100 + c * 10 + d
      let m := e * 10 + f
      let dd := g * 10 + h
      if s1 = '-' ∧ s2 = '-' ∧ 1 ≤ m ∧ m ≤ 12 ∧ 1 ≤ dd ∧ dd ≤ 31 then
        some (daysFromCivil y m dd)
      else none
    | _, _, _, _, _, _, _, _ => none
  | _ => none

/-- The validity deadline of a token requested with the date `expires_at`, by the rule that
main.go 193 and 212 state for the upstream: the token is valid until the end of that day.
The day is read on the upstream's calendar, `calendarOffset` nanoseconds east of UTC. -/
def validUntil (calendarOffset : Int) (expires_at : String) : Option Int :=
  (parseDate expires_at).map fun day => (day + 1) * Day - calendarOffset

/-! ## Data model -/

/-- The struct `cachedToken` (main.go 100-103). -/
structure cachedToken where
  Token : String
  Expiry : Time
  deriving DecidableEq, Repr

/-- The struct `TokenResponse` (main.go 105-107). -/
structure TokenResponse where
  Token : String
  deriving DecidableEq, Repr

/-- The value type of `userMap` (main.go 29-32). -/
structure User where
  ID : Int
  Username : String
  deriving DecidableEq, Repr

/-- The entries of `userMap` (main.go 33-35). -/
def userMapEntries : List (String × User) :=
  [ ("jonathanp", ⟨1, "root"⟩),
    ("bob", ⟨1, "root"⟩),
    ("alice", ⟨3, "alice"⟩) ]

/-- The lookup `userMap[cn]`; `none` is Go's `ok == false`. -/
def userMap (cn : String) : Option User := userMapEntries.lookup cn

/-- A JSON value, as `encoding/json` scans it. -/
inductive JSON where
  | null
  | bool (b : Bool)
  | num (literal : String)
  | str (s : String)
  | arr (elems : List JSON)
  | obj (members : List (String × JSON))

/-- What `generateImpersonationToken` can return as its `error`. -/
inductive Err where
  /-- `http.NewRequest` failed: the API URL does not parse (main.go 222-225). -/
  | newRequest
  /-- `client.Do` failed: network error, timeout (main.go 230-233). -/
  | transport (reason : String)
  /-- The response status is not 201 (main.go 236-239). -/
  | status (code : Int)
  /-- `Decode` of the response body failed (main.go 242-244). -/
  | decode
  deriving DecidableEq, Repr

/-- The part of `url.URL` that `proxyDirector` touches. -/
structure URL where
  Scheme : String
  Host : String
  deriving DecidableEq, Repr

/-- The map `{"name", "scopes", "expires_at"}` marshalled at main.go 216-220. -/
structure TokenRequestBody where
  name : String
  scopes : List String
  expires_at : String
  deriving DecidableEq, Repr

/-- The request built at main.go 222-227 and handed to `client.Do`. -/
structure IssuerRequest where
  Method : String
  URL : String
  PrivateToken : String
  ContentType : String
  Body : TokenRequestBody
  deriving DecidableEq, Repr

/-- An upstream response: its status code and the first JSON value on its body stream
(`none` when the stream does not start with a well-formed JSON value: empty, truncated,
not JSON, or failing to read). -/
structure Response where
  StatusCode : Int
  Body : Option JSON

/-- Result of `client.Do`: an error, or a response. -/
inductive RoundTrip where
  | failed (reason : String)
  | response (resp : Response)

/-- Everything the program reads but does not own: the configuration variables
(main.go 25-26), the local zone offset in nanoseconds, the clock, `url.Parse`, and the
upstream behind `client.Do` (which may answer differently at each call). -/
structure Env where
  upstreamURL : String
  gitlabAdminToken : String
  zoneOffset : Int
  clock : Nat → Time
  urlParse : String → Option URL
  transport : Nat → IssuerRequest → RoundTrip

/-- The mutable process state: number of `time.Now()` readings taken, the requests given to
`client.Do` so far (latest first), `tokenCache.items`, and the two cache counters. -/
structure World where
  reads : Nat
  calls : List IssuerRequest
  items : Int → Option cachedToken
  cacheHits : Nat
  cacheMisses : Nat

/-- The call `time.Now()`. -/
def timeNow (env : Env) (w : World) : Time × World :=
  (env.clock w.reads, { w with reads := w.reads + 1 })

/-- Calendar day number of an instant, in the process's zone. -/
def dayOf (env : Env) (t : Time) : Int := (t + env.zoneOffset) / Day

/-- The call `t.Format("2006-01-02")`. -/
def formatDate (env : Env) (t : Time) : String := formatDay (dayOf env t)

/-! ## Decoding the issuer response (`encoding/json` into `TokenResponse`) -/

/-- Case folding of one rune of an object key, exact for comparison against an ASCII name:
the only non-ASCII runes that fold onto ASCII letters are U+212A (Kelvin) and U+017F. -/
def foldRune (c : Char) : Char :=
  if c.isLower then c.toUpper
  else if c = Char.ofNat 0x212A then 'K'
  else if c = Char.ofNat 0x017F then 'S'
  else c

/-- Whether an object key selects the field tagged `json:"token"`: exact match, else
case-insensitive match. -/
def isTokenKey (key : String) : Bool :=
  key == "token" || key.toList.map foldRune == "token".toList.map foldRune

/-- Store one object member into the result; the flag records a saved type error. -/
def storeMember (acc : TokenResponse × Bool) (member : String × JSON) : TokenResponse × Bool :=
  if isTokenKey member.1 then
    match member.2 with
    | .str s => ({ Token := s }, acc.2)
    | .null => acc
    | _ => (acc.1, true)
  else acc

/-- The call `Decode(&result)` on `var result TokenResponse`, given the first JSON value of the
stream: `null` is a no-op, an object is stored member by member (unknown keys skipped),
any other value is a type error; a missing value is a syntax or read error. -/
def decodeTokenResponse (body : Option JSON) : Except Err TokenResponse :=
  match body with
  | none => .error .decode
  | some .null => .ok { Token := "" }
  | some (.obj members) =>
    let r := members.foldl storeMember ({ Token := "" }, false)
    if r.2 then .error .decode else .ok r.1
  | some _ => .error .decode

/-- A JSON value that cannot be stored into a Go `string`: anything but a string or null. -/
def JSON.notStringOrNull : JSON → Bool
  | .str _ => false
  | .null => false
  | _ => true

/-- The bodies that `Decode(&result)` reports as an error: no well-formed JSON value, a value
that is neither an object nor null, or an object in which some member selecting the `token`
field holds neither a string nor null. -/
def undecodable : Option JSON → Bool
  | none => true
  | some .null => false
  | some (.obj members) => members.any fun m => isTokenKey m.1 && m.2.notStringOrNull
  | some _ => true

/-! ## `generateImpersonationToken` and `getOrGenerateToken` -/

/-- The function `generateImpersonationToken` (main.go 208-246).  Returns Go's
`(string, error)` pair and the new world. -/
def generateImpersonationToken (env : Env) (userID : Int) (w : World) :
    (String × Option Err) × World :=
  let apiURL := env.upstreamURL ++ "/api/v4/users/" ++ toString userID ++ "/impersonation_tokens"
  let (now, w) := timeNow env w
  let targetTime := now + 24 * Hour
  let expiresAtParam := formatDate env targetTime
  let (nowName, w) := timeNow env w
  let reqBody : TokenRequestBody :=
    { name := "mtls-proxy-" ++ toString nowName, scopes := ["api"], expires_at := expiresAtParam }
  match env.urlParse apiURL with
  | none => (("", some .newRequest), w)
  | some _ =>
    let req : IssuerRequest :=
      { Method := "POST", URL := apiURL, PrivateToken := env.gitlabAdminToken,
        ContentType := "application/json", Body := reqBody }
    let result := env.transport w.calls.length req
    let w := { w with calls := req :: w.calls }
    match result with
    | .failed reason => (("", some (.transport reason)), w)
    | .response resp =>
      if resp.StatusCode ≠ 201 then (("", some (.status resp.StatusCode)), w)
      else
        match decodeTokenResponse resp.Body with
        | .error e => (("", some e), w)
        | .ok result => ((result.Token, none), w)

/-- The cache check of `getOrGenerateToken` (main.go 172-180): the cached token when the
entry exists and `time.Now().Before(item.Expiry)`.  The clock is read only when the entry
exists. -/
def checkCache (env : Env) (userID : Int) (w : World) : Option String × World :=
  match w.items userID with
  | some item =>
    let (now, w) := timeNow env w
    if now < item.Expiry then (some item.Token, w) else (none, w)
  | none => (none, w)

/-- The world in which the issuer is called after a failed cache check: the check is done
and `cacheMisses.Inc()` has run (main.go 180-181). -/
def missWorld (env : Env) (userID : Int) (w : World) : World :=
  { (checkCache env userID w).2 with cacheMisses := (checkCache env userID w).2.cacheMisses + 1 }

/-- The function `getOrGenerateToken` (main.go 170-206). -/
def getOrGenerateToken (env : Env) (userID : Int) (w : World) :
    (String × Option Err) × World :=
  match checkCache env userID w with
  | (some token, w) => ((token, none), { w with cacheHits := w.cacheHits + 1 })
  | (none, w) =>
    let w := { w with cacheMisses := w.cacheMisses + 1 }
    match generateImpersonationToken env userID w with
    | ((_, some err), w) => (("", some err), w)
    | ((token, none), w) =>
      let (now, w) := timeNow env w
      let safeExpiry := now + 23 * Hour
      ((token, none),
        { w with items := Function.update w.items userID (some { Token := token, Expiry := safeExpiry }) })

/-! ## `base64.StdEncoding` -/

/-- The alphabet of `base64.StdEncoding`. -/
def encodeStd : List Char :=
  "ABCDEFGHIJKLMNOPQRSTUVWXYZabcdefghijklmnopqrstuvwxyz0123456789+/".toList

/-- The alphabet character of a 6-bit value. -/
def encChar (n : Nat) : Char := encodeStd.getD n 'A'

/-- The 6-bit value of an alphabet character. -/
def sextet (c : Char) : Option Nat :=
  let i := encodeStd.indexOf c
  if i < 64 then some i else none

/-- Standard base64 with `=` padding, three bytes to four characters. -/
def encodeBytes : List Nat → List Char
  | b0 :: b1 :: b2 :: rest =>
    let val := b0 * 65536 + b1 * 256 + b2
    encChar (val / 262144 % 64) :: encChar (val / 4096 % 64) :: encChar (val / 64 % 64)
      :: encChar (val % 64) :: encodeBytes rest
  | [b0, b1] =>
    let val := b0 * 65536 + b1 * 256
    [encChar (val / 262144 % 64), encChar (val / 4096 % 64), encChar (val / 64 % 64), '=']
  | [b0] =>
    let val := b0 * 65536
    [encChar (val / 262144 % 64), encChar (val / 4096 % 64), '=', '=']
  | [] => []

/-- Standard base64 decoding with mandatory `=` padding, four characters to three bytes. -/
def decodeChars : List Char → Option (List Nat)
  | [] => some []
  | c0 :: c1 :: c2 :: c3 :: rest =>
    if c3 = '=' then
      if rest ≠ [] then none
      else if c2 = '=' then
        match sextet c0, sextet c1 with
        | some s0, some s1 =>
          let val := s0 * 262144 + s1 * 4096
          some [val / 65536 % 256]
        | _, _ => none
      else
        match sextet c0, sextet c1, sextet c2 with
        | some s0, some s1, some s2 =>
          let val := s0 * 262144 + s1 * 4096 + s2 * 64
          some [val / 65536 % 256, val / 256 % 256]
        | _, _, _ => none
    else
      match sextet c0, sextet c1, sextet c2, sextet c3, decodeChars rest with
      | some s0, some s1, some s2, some s3, some tail =>
        let val := s0 * 262144 + s1 * 4096 + s2 * 64 + s3
        some (val / 65536 % 256 :: val / 256 % 256 :: val % 256 :: tail)
      | _, _, _, _, _ => none
  | _ => none

/-- The conversion `[]byte(s)`: the UTF-8 bytes of a string, as numbers below 256. -/
def bytesOf (s : String) : List Nat := s.toUTF8.data.toList.map UInt8.toNat

/-- The call `base64.StdEncoding.EncodeToString`. -/
def EncodeToString (src : List Nat) : String := String.mk (encodeBytes src)

/-- The call `base64.StdEncoding.DecodeString`, on text without line breaks. -/
def DecodeString (s : String) : Option (List Nat) := decodeChars s.toList

/-! ## Request headers -/

/-- The type `http.Header`: a map from canonical key to its list of values. -/
abbrev Header := String → Option (List String)

/-- Bytes allowed in a header field name (RFC 7230 token characters). -/
def validHeaderFieldByte (c : Char) : Bool :=
  c.isAlphanum ||
    [33, 35, 36, 37, 38, 39, 42, 43, 45, 46, 94, 95, 96, 124, 126].contains c.toNat

/-- Upper-case the first letter and each letter after a hyphen, lower-case the others. -/
def canonicalize : Bool → List Char → List Char
  | _, [] => []
  | upper, c :: cs =>
    (if upper then c.toUpper else c.toLower) :: canonicalize (c == '-') cs

/-- The function `textproto.CanonicalMIMEHeaderKey`: a key holding a byte that is not a
token character is returned as it is. -/
def canonicalMIMEHeaderKey (s : String) : String :=
  if s.toList.all validHeaderFieldByte then String.mk (canonicalize true s.toList) else s

/-- The method `Header.Set`: replaces all values of the key by the single `value`. -/
def Header.Set (h : Header) (key value : String) : Header :=
  Function.update h (canonicalMIMEHeaderKey key) (some [value])

/-- The method `Header.Get`: first value of the key, `""` when there is none. -/
def Header.Get (h : Header) (key : String) : String :=
  match h (canonicalMIMEHeaderKey key) with
  | some (v :: _) => v
  | _ => ""

/-- The method `Header.Values`: all values of the key. -/
def Header.Values (h : Header) (key : String) : List String :=
  (h (canonicalMIMEHeaderKey key)).getD []

/-! ## `proxyDirector` -/

/-- The field `Subject.CommonName` of an `x509.Certificate`. -/
structure Certificate where
  CommonName : String
  deriving DecidableEq, Repr

/-- The field `PeerCertificates` of a `tls.ConnectionState`. -/
structure ConnectionState where
  PeerCertificates : List Certificate
  deriving DecidableEq, Repr

/-- The fields of `http.Request` that `proxyDirector` reads or writes; `TLS = none` is the
nil pointer.  `URL` and `Header` are non-nil, as the reverse proxy provides them. -/
structure Request where
  URL : URL
  Host : String
  Header : Header
  TLS : Option ConnectionState

/-- How a call of `proxyDirector` ends, with the request and world as they are then. -/
inductive Outcome where
  /-- The function returned. -/
  | returned (req : Request) (w : World)
  /-- The function panicked (nil pointer dereference). -/
  | panicked (req : Request) (w : World)

/-- The request as the call left it. -/
def Outcome.req : Outcome → Request
  | .returned r _ => r
  | .panicked r _ => r

/-- The world as the call left it. -/
def Outcome.world : Outcome → World
  | .returned _ w => w
  | .panicked _ w => w

/-- Whether the call returned normally. -/
def Outcome.isReturned : Outcome → Bool
  | .returned _ _ => true
  | .panicked _ _ => false

/-- The function `proxyDirector` (main.go 248-288).  The error of `url.Parse` is discarded
at line 249, so on a parse error `target` is nil and line 250 dereferences it. -/
def proxyDirector (env : Env) (req : Request) (w : World) : Outcome :=
  match env.urlParse env.upstreamURL with
  | none => .panicked req w
  | some target =>
    let req := { req with
      URL := { req.URL with Scheme := target.Scheme, Host := target.Host }, Host := target.Host }
    -- 1. Extract User from Cert
    match req.TLS with
    | none => .returned req w
    | some tls =>
      match tls.PeerCertificates with
      | [] => .returned req w
      | cert :: _ =>
        let cn := cert.CommonName
        match userMap cn with
        | none => .returned req w
        | some user =>
          -- 2. Get/Generate Impersonation Token
          match getOrGenerateToken env user.ID w with
          | ((_, some _), w) => .returned req w
          | ((token, none), w) =>
            -- 3. Inject Headers
            let req := { req with Header := req.Header.Set "PRIVATE-TOKEN" token }
            let auth := user.Username ++ ":" ++ token
            let encodedAuth := EncodeToString (bytesOf auth)
            .returned { req with Header := req.Header.Set "Authorization" ("Basic " ++ encodedAuth) } w

/-! ## A concrete environment, after `main_test.go` -/

/-- The handler of `mockGitLabServer` (main_test.go 15-30): 401 unless the admin token is
presented, else 201 with the body `{"token": "mock-token-12345"}`. -/
def mockGitLabServer (adminToken : String) : Nat → IssuerRequest → RoundTrip :=
  fun _ r =>
    if r.PrivateToken ≠ adminToken then .response { StatusCode := 401, Body := none }
    else .response { StatusCode := 201, Body := some (.obj [("token", .str "mock-token-12345")]) }

/-- An upstream that answers every call with 201 and the body `{"token": tok}`. -/
def issuing (tok : String) : Nat → IssuerRequest → RoundTrip :=
  fun _ _ => .response { StatusCode := 201, Body := some (.obj [("token", .str tok)]) }

/-- An upstream that cannot be reached: every call times out. -/
def unreachable : Nat → IssuerRequest → RoundTrip :=
  fun _ _ => .failed "context deadline exceeded"

/-- An environment whose upstream URL parses, with a clock ticking once a second. -/
def testEnv (transport : Nat → IssuerRequest → RoundTrip) : Env :=
  { upstreamURL := "http://127.0.0.1:8080"
    gitlabAdminToken := "test-admin-token"
    zoneOffset := 0
    clock := fun k => (k : Int) * Second
    urlParse := fun _ => some { Scheme := "http", Host := "127.0.0.1:8080" }
    transport := transport }

/-- The state of `TestGetOrGenerateToken` after "Reset Cache": an empty cache. -/
def emptyWorld : World :=
  { reads := 0, calls := [], items := fun _ => none, cacheHits := 0, cacheMisses := 0 }

/-- The request of `TestProxyDirector`: no headers, one peer certificate with the given CN. -/
def testRequest (clientCN : String) : Request :=
  { URL := { Scheme := "https", Host := "proxy.local" }
    Host := "proxy.local"
    Header := fun _ => none
    TLS := some { PeerCertificates := [{ CommonName := clientCN }] } }

/-- A cache holding one entry for user 123 whose `Expiry` is the instant 0, which is also the
first clock reading of `testEnv`: the entry has just expired. -/
def staleWorld : World :=
  { reads := 0, calls := []
    items := fun uid => if uid = 123 then some { Token := "old-token", Expiry := 0 } else none
    cacheHits := 0, cacheMisses := 0 }

/-- The cache that `TestGetOrGenerateToken` installs before its second call
(main_test.go 65-70): user 123 holds `cached-token-999`, good for one hour. -/
def freshWorld : World :=
  { reads := 0, calls := []
    items := fun uid =>
      if uid = 123 then some { Token := "cached-token-999", Expiry := 1 * Hour } else none
    cacheHits := 0, cacheMisses := 0 }

/-! ## Derived notions used in the statements -/

/-- The request that `generateImpersonationToken` builds in world `w` (main.go 209-227). -/
def issuerRequest (env : Env) (userID : Int) (w : World) : IssuerRequest :=
  { Method := "POST"
    URL := env.upstreamURL ++ "/api/v4/users/" ++ toString userID ++ "/impersonation_tokens"
    PrivateToken := env.gitlabAdminToken
    ContentType := "application/json"
    Body :=
      { name := "mtls-proxy-" ++ toString (env.clock (w.reads + 1))
        scopes := ["api"]
        expires_at := formatDate env (env.clock w.reads + 24 * Hour) } }

/-- The header map after step 3 of `proxyDirector` for user name `U` and token `T`. -/
def injected (h : Header) (U T : String) : Header :=
  (h.Set "PRIVATE-TOKEN" T).Set "Authorization"
    ("Basic " ++ EncodeToString (bytesOf (U ++ ":" ++ T)))

/-- The credential part of an `Authorization` value: what follows the six characters of the
prefix `"Basic "`. -/
def afterBasic (value : String) : String := String.mk (value.toList.drop 6)

/-- The request after lines 250-252: scheme and host are those of the parsed upstream. -/
def retarget (target : URL) (req : Request) : Request :=
  { req with
    URL := { req.URL with Scheme := target.Scheme, Host := target.Host }, Host := target.Host }

/-- Two successive calls of `proxyDirector` on the same request: the second call gets the
request and the world as the first call left them. -/
def twice (env : Env) (req : Request) (w : World) : Outcome :=
  proxyDirector env (proxyDirector env req w).req (proxyDirector env req w).world

/-- A request that arrives without TLS state. -/
def plainRequest : Request :=
  { URL := { Scheme := "http", Host := "proxy.local" }
    Host := "proxy.local"
    Header := fun _ => none
    TLS := none }

/-- The request of an unknown client that itself carries both authentication headers. -/
def smugglingRequest : Request :=
  { testRequest "unknown-hacker" with
    Header := fun key =>
      if key = "Private-Token" then some ["client-supplied"]
      else if key = "Authorization" then some ["Basic Zm9vOmJhcg=="]
      else none }

/-- A configuration that passes the startup check of `main` (the URL is not empty) but whose
URL `url.Parse` rejects: a URL that starts with a colon has no protocol scheme. -/
def brokenEnv : Env :=
  { upstreamURL := "://gitlab.internal"
    gitlabAdminToken := "test-admin-token"
    zoneOffset := 0
    clock := fun k => (k : Int) * Second
    urlParse := fun raw =>
      if raw.toList.head? = some ':' then none
      else some { Scheme := "http", Host := "gitlab.internal" }
    transport := mockGitLabServer "test-admin-token" }

/-- A proxy whose local zone is five hours west of UTC, in front of an upstream issuing
`tok-A`.  The first three clock readings are 2026-01-01 04:30:00, 04:30:01 and 04:30:02 UTC
(23:30 of 2025-12-31 on the proxy's calendar); every later reading is 2026-01-02 02:30:00
UTC. -/
def easternEnv : Env :=
  { upstreamURL := "http://127.0.0.1:8080"
    gitlabAdminToken := "test-admin-token"
    zoneOffset := -5 * Hour
    clock := fun k =>
      if k < 3 then 20454 * Day + 4 * Hour + 1800 * Second + (k : Int) * Second
      else 20455 * Day + 2 * Hour + 1800 * Second
    urlParse := fun _ => some { Scheme := "http", Host := "127.0.0.1:8080" }
    transport := issuing "tok-A" }

/-- A cache whose entry for user 3 (`alice`) expires one second after the first clock
reading of `testEnv`. -/
def expiringWorld : World :=
  { reads := 0, calls := []
    items := fun uid => if uid = 3 then some { Token := "tok-old", Expiry := 1 * Second } else none
    cacheHits := 0, cacheMisses := 0 }

/-! ## Lemmas on the issuer call and the cache -/

theorem checkCache_items (env : Env) (uid : Int) (w : World) :
    (checkCache env uid w).2.items = w.items ∧ (checkCache env uid w).2.calls = w.calls := by
  unfold checkCache timeNow
  cases w.items uid with
  | none => simp
  | some item =>
    by_cases h : env.clock w.reads < item.Expiry <;> simp [h]

theorem checkCache_absent (env : Env) (uid : Int) (w : World) (h : w.items uid = none) :
    checkCache env uid w = (none, w) := by
  unfold checkCache
  simp [h]

theorem checkCache_stale (env : Env) (uid : Int) (w : World) (item : cachedToken)
    (h : w.items uid = some item) (hs : ¬ env.clock w.reads < item.Expiry) :
    checkCache env uid w = (none, { w with reads := w.reads + 1 }) := by
  unfold checkCache timeNow
  simp [h, hs]

theorem checkCache_fresh (env : Env) (uid : Int) (w : World) (item : cachedToken)
    (h : w.items uid = some item) (hs : env.clock w.reads < item.Expiry) :
    checkCache env uid w = (some item.Token, { w with reads := w.reads + 1 }) := by
  unfold checkCache timeNow
  simp [h, hs]

theorem checkCache_miss (env : Env) (uid : Int) (w : World)
    (hmiss : ∀ item, w.items uid = some item → ¬ env.clock w.reads < item.Expiry) :
    (checkCache env uid w).1 = none := by
  cases h : w.items uid with
  | none => rw [checkCache_absent env uid w h]
  | some item => rw [checkCache_stale env uid w item h (hmiss item h)]

theorem generate_frame (env : Env) (uid : Int) (w : World) :
    (generateImpersonationToken env uid w).2.items = w.items
      ∧ (generateImpersonationToken env uid w).2.reads = w.reads + 2
      ∧ ((generateImpersonationToken env uid w).2.calls = w.calls
          ∨ (generateImpersonationToken env uid w).2.calls = issuerRequest env uid w :: w.calls) := by
  unfold generateImpersonationToken timeNow issuerRequest
  simp only
  split
  · simp
  · split
    · simp
    · split
      · simp
      · split <;> simp

theorem generate_ok_calls (env : Env) (uid : Int) (w : World) (T : String)
    (h : (generateImpersonationToken env uid w).1 = (T, none)) :
    (generateImpersonationToken env uid w).2.calls = issuerRequest env uid w :: w.calls := by
  unfold generateImpersonationToken timeNow issuerRequest at *
  simp only at *
  split at h
  · simp at h
  · split at h
    · simp at h
    · split at h
      · simp at h
      · split at h <;> simp_all

theorem getOrGenerateToken_hit (env : Env) (uid : Int) (w w1 : World) (tok : String)
    (h : checkCache env uid w = (some tok, w1)) :
    getOrGenerateToken env uid w = ((tok, none), { w1 with cacheHits := w1.cacheHits + 1 }) := by
  unfold getOrGenerateToken
  rw [h]

theorem getOrGenerateToken_fail (env : Env) (uid : Int) (w : World) (e : Err)
    (hc : (checkCache env uid w).1 = none)
    (hg : (generateImpersonationToken env uid (missWorld env uid w)).1.2 = some e) :
    getOrGenerateToken env uid w
      = (("", some e), (generateImpersonationToken env uid (missWorld env uid w)).2) := by
  unfold getOrGenerateToken
  unfold missWorld at hg ⊢
  rcases hcc : checkCache env uid w with ⟨r, w1⟩
  rw [hcc] at hc hg
  simp only at hc hg
  subst hc
  simp only
  rcases hgg : generateImpersonationToken env uid
      { w1 with cacheMisses := w1.cacheMisses + 1 } with ⟨⟨s, oe⟩, w2⟩
  rw [hgg] at hg
  simp only at hg
  subst hg
  simp only

theorem getOrGenerateToken_store (env : Env) (uid : Int) (w : World) (T : String)
    (hc : (checkCache env uid w).1 = none)
    (hg : (generateImpersonationToken env uid (missWorld env uid w)).1 = (T, none)) :
    getOrGenerateToken env uid w
      = ((T, none),
          { (generateImpersonationToken env uid (missWorld env uid w)).2 with
            reads := (generateImpersonationToken env uid (missWorld env uid w)).2.reads + 1
            items := Function.update
              (generateImpersonationToken env uid (missWorld env uid w)).2.items uid
              (some { Token := T
                      Expiry := env.clock
                        (generateImpersonationToken env uid (missWorld env uid w)).2.reads
                          + 23 * Hour }) }) := by
  unfold getOrGenerateToken
  unfold missWorld at hg ⊢
  rcases hcc : checkCache env uid w with ⟨r, w1⟩
  rw [hcc] at hc hg
  simp only at hc hg
  subst hc
  simp only
  rcases hgg : generateImpersonationToken env uid
      { w1 with cacheMisses := w1.cacheMisses + 1 } with ⟨⟨s, oe⟩, w2⟩
  rw [hgg] at hg
  simp only [Prod.mk.injEq] at hg
  obtain ⟨rfl, rfl⟩ := hg
  simp only [timeNow]

theorem getOrGenerateToken_cases (env : Env) (uid : Int) (w : World) :
    (∃ tok, (checkCache env uid w).1 = some tok
        ∧ getOrGenerateToken env uid w
            = ((tok, none),
                { (checkCache env uid w).2 with
                  cacheHits := (checkCache env uid w).2.cacheHits + 1 }))
      ∨ ((checkCache env uid w).1 = none
          ∧ ∃ e, (generateImpersonationToken env uid (missWorld env uid w)).1.2 = some e
            ∧ getOrGenerateToken env uid w
                = (("", some e), (generateImpersonationToken env uid (missWorld env uid w)).2))
      ∨ ((checkCache env uid w).1 = none
          ∧ ∃ T, (generateImpersonationToken env uid (missWorld env uid w)).1 = (T, none)
            ∧ (getOrGenerateToken env uid w).1 = (T, none)) := by
  rcases hc : checkCache env uid w with ⟨_ | tok, w1⟩
  · have hc1 : (checkCache env uid w).1 = none := by rw [hc]
    rcases hg : (generateImpersonationToken env uid (missWorld env uid w)).1 with ⟨s, _ | e⟩
    · right; right
      refine ⟨rfl, s, rfl, ?_⟩
      rw [getOrGenerateToken_store env uid w s hc1 hg]
    · right; left
      have hg2 : (generateImpersonationToken env uid (missWorld env uid w)).1.2 = some e := by
        rw [hg]
      exact ⟨rfl, e, rfl, getOrGenerateToken_fail env uid w e hc1 hg2⟩
  · left
    exact ⟨tok, rfl, getOrGenerateToken_hit env uid w w1 tok hc⟩

theorem missWorld_frame (env : Env) (uid : Int) (w : World) :
    (missWorld env uid w).items = w.items ∧ (missWorld env uid w).calls = w.calls := by
  unfold missWorld
  exact checkCache_items env uid w

theorem foldl_storeMember_flag (members : List (String × JSON)) (acc : TokenResponse × Bool) :
    (members.foldl storeMember acc).2
      = (acc.2 || members.any fun m => isTokenKey m.1 && m.2.notStringOrNull) := by
  induction members generalizing acc with
  | nil => simp
  | cons m ms ih =>
    rw [List.foldl_cons, ih, List.any_cons]
    unfold storeMember
    by_cases hk : isTokenKey m.1 = true
    · rcases m with ⟨k, v⟩
      cases v <;> simp [hk, JSON.notStringOrNull] at *
    · simp [hk]

theorem decodeTokenResponse_error_iff (body : Option JSON) :
    decodeTokenResponse body = .error .decode ↔ undecodable body = true := by
  rcases body with _ | v
  · simp [decodeTokenResponse, undecodable]
  · cases v with
    | obj members =>
      simp only [decodeTokenResponse, undecodable, foldl_storeMember_flag, Bool.false_or]
      cases members.any fun m => isTokenKey m.1 && m.2.notStringOrNull <;> simp
    | _ => simp [decodeTokenResponse, undecodable]

theorem decodeTokenResponse_error (body : Option JSON) (e : Err)
    (h : decodeTokenResponse body = .error e) : e = .decode := by
  rcases body with _ | v
  · simp [decodeTokenResponse] at h
    exact h.symm
  · cases v <;> simp only [decodeTokenResponse] at h
    all_goals first
      | (split at h <;> simp at h <;> exact h.symm)
      | (simp at h; try exact h.symm)

theorem decodeTokenResponse_token (s : String) :
    decodeTokenResponse (some (.obj [("token", .str s)])) = .ok { Token := s } := by
  have hk : isTokenKey "token" = true := by decide
  simp [decodeTokenResponse, storeMember, hk]

theorem generate_response (env : Env) (uid : Int) (w : World) (resp : Response)
    (hurl : env.urlParse (issuerRequest env uid w).URL ≠ none)
    (hresp : env.transport w.calls.length (issuerRequest env uid w) = .response resp) :
    (generateImpersonationToken env uid w).1
      = if resp.StatusCode ≠ 201 then ("", some (.status resp.StatusCode))
        else
          match decodeTokenResponse resp.Body with
          | .error e => ("", some e)
          | .ok result => (result.Token, none) := by
  unfold generateImpersonationToken timeNow
  unfold issuerRequest at hurl hresp
  simp only at hurl hresp ⊢
  split
  · rename_i h
    exact absurd h hurl
  · simp only [hresp]
    split
    · rfl
    · split <;> rfl

theorem Hour_eq : Hour = 3600000000000 := by norm_num [Hour, Second]

theorem Day_eq : Day = 86400000000000 := by norm_num [Day, Hour, Second]

theorem yoe_bounds (doe : Int) (h0 : 0 ≤ doe) (h1 : doe ≤ 146096) :
    0 ≤ (doe - doe / 1460 + doe / 36524 - doe / 146096) / 365
      ∧ (doe - doe / 1460 + doe / 36524 - doe / 146096) / 365 ≤ 399 := by
  omega

set_option maxHeartbeats 8000000 in
theorem doy_bounds (doe yoe : Int) (h0 : 0 ≤ doe) (h1 : doe ≤ 146096)
    (hy : yoe = (doe - doe / 1460 + doe / 36524 - doe / 146096) / 365) :
    0 ≤ doe - (365 * yoe + yoe / 4 - yoe / 100)
      ∧ doe - (365 * yoe + yoe / 4 - yoe / 100) ≤ 365 := by
  obtain ⟨hl, hu⟩ := yoe_bounds doe h0 h1
  rw [← hy] at hl hu
  interval_cases yoe <;> omega

theorem days_of_parts (era yoe doy mp : Int) (hy0 : 0 ≤ yoe) (hy1 : yoe ≤ 399)
    (hmp0 : 0 ≤ mp) (hmp1 : mp ≤ 11) :
    daysFromCivil
        (if (if mp < 10 then mp + 3 else mp - 9) ≤ 2 then yoe + era * 400 + 1
          else yoe + era * 400)
        (if mp < 10 then mp + 3 else mp - 9) (doy - (153 * mp + 2) / 5 + 1)
      = era * 146097 + (yoe * 365 + yoe / 4 - yoe / 100 + doy) - 719468 := by
  have hk : (yoe + era * 400) / 400 = era := by omega
  have hsub : yoe + era * 400 - era * 400 = yoe := by ring
  by_cases h : mp < 10
  · have hm : ¬ (mp + 3 ≤ 2) := by omega
    have hm2 : mp + 3 > 2 := by omega
    simp only [daysFromCivil, if_pos h, if_neg hm, if_pos hm2, add_sub_cancel_right, hk, hsub]
    ring
  · have hm : mp - 9 ≤ 2 := by omega
    have hm2 : ¬ (mp - 9 > 2) := by omega
    simp only [daysFromCivil, if_neg h, if_pos hm, if_neg hm2, add_sub_cancel_right,
      sub_add_cancel, hk, hsub]
    ring

/-- The calendar conversion is exact: a day number is recovered from its civil date, whose
month and day of month are in range. -/
theorem daysFromCivil_civilFromDays (z : Int) :
    daysFromCivil (civilFromDays z).1 (civilFromDays z).2.1 (civilFromDays z).2.2 = z
      ∧ 1 ≤ (civilFromDays z).2.1 ∧ (civilFromDays z).2.1 ≤ 12
      ∧ 1 ≤ (civilFromDays z).2.2 ∧ (civilFromDays z).2.2 ≤ 31 := by
  have hdoe0 : 0 ≤ z + 719468 - (z + 719468) / 146097 * 146097 := by omega
  have hdoe1 : z + 719468 - (z + 719468) / 146097 * 146097 ≤ 146096 := by omega
  generalize hera : (z + 719468) / 146097 = era at hdoe0 hdoe1
  generalize hdoe : z + 719468 - era * 146097 = doe at hdoe0 hdoe1
  obtain ⟨hy0, hy1⟩ := yoe_bounds doe hdoe0 hdoe1
  generalize hyoe : (doe - doe / 1460 + doe / 36524 - doe / 146096) / 365 = yoe at hy0 hy1
  obtain ⟨hd0, hd1⟩ := doy_bounds doe yoe hdoe0 hdoe1 hyoe.symm
  simp only [civilFromDays, hera, hdoe, hyoe]
  generalize hdoy : doe - (365 * yoe + yoe / 4 - yoe / 100) = doy at hd0 hd1
  have hmp0 : 0 ≤ (5 * doy + 2) / 153 := by omega
  have hmp1 : (5 * doy + 2) / 153 ≤ 11 := by omega
  have hq : 153 * ((5 * doy + 2) / 153) ≤ 5 * doy + 2
      ∧ 5 * doy + 2 < 153 * ((5 * doy + 2) / 153) + 153 := by omega
  generalize hmp : (5 * doy + 2) / 153 = mp at hmp0 hmp1 hq
  refine ⟨?_, ?_, ?_, ?_, ?_⟩
  · rw [days_of_parts era yoe doy mp hy0 hy1 hmp0 hmp1]
    omega
  · split_ifs <;> omega
  · split_ifs <;> omega
  · omega
  · omega

theorem digitVal_small : ∀ j, j < 10 → digitVal (Char.ofNat (48 + j)) = some (j : Int) := by
  decide

theorem digitVal_digitChar (k : Nat) : digitVal (digitChar k) = some ((k % 10 : Nat) : Int) :=
  digitVal_small (k % 10) (Nat.mod_lt _ (by norm_num))

theorem zeroPad_four (y : Int) (h0 : 0 ≤ y) (h1 : y ≤ 9999) :
    (zeroPad 4 y).toList
      = [digitChar (y.toNat / 1000), digitChar (y.toNat / 100), digitChar (y.toNat / 10),
          digitChar y.toNat] := by
  have hn : ¬ y < 0 := by omega
  have hlt : y.toNat < 10 ^ 4 := by omega
  have habs : y.natAbs = y.toNat := by omega
  simp only [zeroPad, habs, if_neg hn, if_pos hlt, String.toList, fixedDigits, List.nil_append,
    List.append_assoc, List.singleton_append, Nat.div_div_eq_div_mul]
  norm_num

theorem zeroPad_two (m : Int) (h0 : 0 ≤ m) (h1 : m ≤ 99) :
    (zeroPad 2 m).toList = [digitChar (m.toNat / 10), digitChar m.toNat] := by
  have hn : ¬ m < 0 := by omega
  have hlt : m.toNat < 10 ^ 2 := by omega
  have habs : m.natAbs = m.toNat := by omega
  simp only [zeroPad, habs, if_neg hn, if_pos hlt, String.toList, fixedDigits, List.nil_append,
    List.singleton_append]

/-- The date text is read back as the day it was written for, for every day whose year has
four digits. -/
theorem parseDate_formatDay (day : Int)
    (hy0 : 0 ≤ (civilFromDays day).1) (hy1 : (civilFromDays day).1 ≤ 9999) :
    parseDate (formatDay day) = some day := by
  obtain ⟨hrt, hm0, hm1, hd0, hd1⟩ := daysFromCivil_civilFromDays day
  unfold formatDay parseDate
  generalize civilFromDays day = c at *
  obtain ⟨y, m, d⟩ := c
  simp only at hy0 hy1 hrt hm0 hm1 hd0 hd1 ⊢
  have hl : (zeroPad 4 y ++ "-" ++ zeroPad 2 m ++ "-" ++ zeroPad 2 d).toList
      = [digitChar (y.toNat / 1000), digitChar (y.toNat / 100), digitChar (y.toNat / 10),
          digitChar y.toNat, '-', digitChar (m.toNat / 10), digitChar m.toNat, '-',
          digitChar (d.toNat / 10), digitChar d.toNat] := by
    have e4 := zeroPad_four y hy0 hy1
    have e2 := zeroPad_two m (by omega) (by omega)
    have e3 := zeroPad_two d (by omega) (by omega)
    simp only [String.toList] at e4 e2 e3 ⊢
    simp only [String.data_append, e4, e2, e3]
    rfl
  rw [hl]
  simp only [digitVal_digitChar]
  have ey : ((y.toNat / 1000 % 10 : Nat) : Int) * 1000 + ((y.toNat / 100 % 10 : Nat) : Int) * 100
      + ((y.toNat / 10 % 10 : Nat) : Int) * 10 + ((y.toNat % 10 : Nat) : Int) = y := by omega
  have em : ((m.toNat / 10 % 10 : Nat) : Int) * 10 + ((m.toNat % 10 : Nat) : Int) = m := by omega
  have ed : ((d.toNat / 10 % 10 : Nat) : Int) * 10 + ((d.toNat % 10 : Nat) : Int) = d := by omega
  rw [ey, em, ed]
  simp [hm0, hm1, hd0, hd1, hrt]

theorem margin_lt (a b : Int) (h : b < a + 1 * Hour) : b + 23 * Hour < a + 24 * Hour := by
  rw [Hour_eq] at h ⊢
  omega

theorem lt_next_midnight (t off : Int) : t < ((t + off) / Day + 1) * Day - off := by
  rw [Day_eq]
  omega

/-! ## Lemmas on base64 and on headers -/

theorem sextet_encChar : ∀ n, n < 64 → sextet (encChar n) = some n := by decide

theorem encChar_ne_pad : ∀ n, n < 64 → encChar n ≠ '=' := by decide

theorem decodeChars_encodeBytes (bs : List Nat) (h : ∀ b ∈ bs, b < 256) :
    decodeChars (encodeBytes bs) = some bs := by
  induction bs using encodeBytes.induct with
  | case1 b0 b1 b2 rest ih =>
    have h0 : b0 < 256 := h b0 (by simp)
    have h1 : b1 < 256 := h b1 (by simp)
    have h2 : b2 < 256 := h b2 (by simp)
    have hr : ∀ b ∈ rest, b < 256 := fun b hb => h b (by simp [hb])
    have e3 := encChar_ne_pad ((b0 * 65536 + b1 * 256 + b2) % 64) (Nat.mod_lt _ (by norm_num))
    simp only [encodeBytes, decodeChars, if_neg e3, ih hr,
      sextet_encChar _ (Nat.mod_lt _ (show 0 < 64 by norm_num))]
    simp only [Option.some.injEq, List.cons.injEq, and_true]
    refine ⟨?_, ?_, ?_⟩ <;> omega
  | case2 b0 b1 =>
    have h0 : b0 < 256 := h b0 (by simp)
    have h1 : b1 < 256 := h b1 (by simp)
    have e2 := encChar_ne_pad ((b0 * 65536 + b1 * 256) / 64 % 64) (Nat.mod_lt _ (by norm_num))
    simp only [encodeBytes, decodeChars, if_neg e2, if_true, ne_eq, not_true_eq_false, if_false,
      sextet_encChar _ (Nat.mod_lt _ (show 0 < 64 by norm_num))]
    simp only [Option.some.injEq, List.cons.injEq, and_true]
    refine ⟨?_, ?_⟩ <;> omega
  | case3 b0 =>
    have h0 : b0 < 256 := h b0 (by simp)
    simp only [encodeBytes, decodeChars, if_true, ne_eq, not_true_eq_false, if_false,
      sextet_encChar _ (Nat.mod_lt _ (show 0 < 64 by norm_num))]
    simp only [Option.some.injEq, List.cons.injEq, and_true]
    omega
  | case4 => simp [encodeBytes, decodeChars]

theorem bytesOf_lt (s : String) : ∀ b ∈ bytesOf s, b < 256 := by
  intro b hb
  unfold bytesOf at hb
  obtain ⟨u, _, rfl⟩ := List.mem_map.mp hb
  exact u.val.isLt

theorem DecodeString_EncodeToString (s : String) :
    DecodeString (EncodeToString (bytesOf s)) = some (bytesOf s) := by
  unfold DecodeString EncodeToString
  exact decodeChars_encodeBytes (bytesOf s) (bytesOf_lt s)

theorem afterBasic_basic (E : String) : afterBasic ("Basic " ++ E) = E := by
  simp [afterBasic, String.toList]

theorem canonical_private_token : canonicalMIMEHeaderKey "PRIVATE-TOKEN" = "Private-Token" := by
  decide

theorem canonical_authorization : canonicalMIMEHeaderKey "Authorization" = "Authorization" := by
  decide

theorem injected_values (h : Header) (U T : String) :
    (injected h U T).Values "PRIVATE-TOKEN" = [T]
      ∧ (injected h U T).Values "Authorization"
          = ["Basic " ++ EncodeToString (bytesOf (U ++ ":" ++ T))]
      ∧ (injected h U T).Get "PRIVATE-TOKEN" = T
      ∧ (injected h U T).Get "Authorization"
          = "Basic " ++ EncodeToString (bytesOf (U ++ ":" ++ T))
      ∧ ∀ key, key ≠ "Private-Token" → key ≠ "Authorization" → injected h U T key = h key := by
  have hne : ("Private-Token" : String) ≠ "Authorization" := by decide
  unfold injected Header.Values Header.Get Header.Set
  rw [canonical_private_token, canonical_authorization]
  refine ⟨?_, ?_, ?_, ?_, ?_⟩
  · rw [Function.update_noteq hne, Function.update_same]
    rfl
  · rw [Function.update_same]
    rfl
  · rw [Function.update_noteq hne, Function.update_same]
  · rw [Function.update_same]
  · intro key h1 h2
    rw [Function.update_noteq h2, Function.update_noteq h1]

theorem injected_overwrites (h : Header) (U T U2 T2 : String) :
    injected (injected h U T) U2 T2 = injected h U2 T2 := by
  have hne : ("Authorization" : String) ≠ "Private-Token" := by decide
  unfold injected Header.Set
  rw [canonical_private_token, canonical_authorization]
  funext key
  simp only [Function.update_apply]
  split_ifs <;> simp_all

theorem injected_injected (h : Header) (U T : String) :
    injected (injected h U T) U T = injected h U T :=
  injected_overwrites h U T U T

/-! ## Lemmas on `proxyDirector`, one per path -/

theorem proxyDirector_unparsable (env : Env) (req : Request) (w : World)
    (hurl : env.urlParse env.upstreamURL = none) :
    proxyDirector env req w = .panicked req w := by
  unfold proxyDirector
  simp [hurl]

theorem proxyDirector_no_tls (env : Env) (req : Request) (w : World) (target : URL)
    (hurl : env.urlParse env.upstreamURL = some target) (htls : req.TLS = none) :
    proxyDirector env req w = .returned (retarget target req) w := by
  unfold proxyDirector retarget
  simp [hurl, htls]

theorem proxyDirector_no_cert (env : Env) (req : Request) (w : World) (target : URL)
    (tls : ConnectionState)
    (hurl : env.urlParse env.upstreamURL = some target) (htls : req.TLS = some tls)
    (hcerts : tls.PeerCertificates = []) :
    proxyDirector env req w = .returned (retarget target req) w := by
  unfold proxyDirector retarget
  simp [hurl, htls, hcerts]

theorem proxyDirector_unknown (env : Env) (req : Request) (w : World) (target : URL)
    (tls : ConnectionState) (cert : Certificate) (rest : List Certificate)
    (hurl : env.urlParse env.upstreamURL = some target) (htls : req.TLS = some tls)
    (hcerts : tls.PeerCertificates = cert :: rest) (huser : userMap cert.CommonName = none) :
    proxyDirector env req w = .returned (retarget target req) w := by
  unfold proxyDirector retarget
  simp [hurl, htls, hcerts, huser]

theorem proxyDirector_token_error (env : Env) (req : Request) (w : World) (target : URL)
    (tls : ConnectionState) (cert : Certificate) (rest : List Certificate) (user : User)
    (e : Err)
    (hurl : env.urlParse env.upstreamURL = some target) (htls : req.TLS = some tls)
    (hcerts : tls.PeerCertificates = cert :: rest) (huser : userMap cert.CommonName = some user)
    (herr : (getOrGenerateToken env user.ID w).1.2 = some e) :
    proxyDirector env req w
      = .returned (retarget target req) (getOrGenerateToken env user.ID w).2 := by
  unfold proxyDirector retarget
  rcases hg : getOrGenerateToken env user.ID w with ⟨⟨s, oe⟩, w2⟩
  rw [hg] at herr
  simp only at herr
  subst herr
  simp [hurl, htls, hcerts, huser, hg]

theorem proxyDirector_inject (env : Env) (req : Request) (w : World) (target : URL)
    (tls : ConnectionState) (cert : Certificate) (rest : List Certificate) (user : User)
    (T : String)
    (hurl : env.urlParse env.upstreamURL = some target) (htls : req.TLS = some tls)
    (hcerts : tls.PeerCertificates = cert :: rest) (huser : userMap cert.CommonName = some user)
    (htok : (getOrGenerateToken env user.ID w).1 = (T, none)) :
    proxyDirector env req w
      = .returned
          { retarget target req with Header := injected req.Header user.Username T }
          (getOrGenerateToken env user.ID w).2 := by
  unfold proxyDirector retarget injected
  rcases hg : getOrGenerateToken env user.ID w with ⟨⟨s, oe⟩, w2⟩
  rw [hg] at htok
  simp only [Prod.mk.injEq] at htok
  obtain ⟨rfl, rfl⟩ := htok
  simp [hurl, htls, hcerts, huser, hg]

theorem getOrGenerateToken_error_items (env : Env) (uid : Int) (w : World) (e : Err)
    (herr : (getOrGenerateToken env uid w).1.2 = some e) :
    (getOrGenerateToken env uid w).2.items = w.items := by
  rcases getOrGenerateToken_cases env uid w with ⟨tok, _, h⟩ | ⟨_, e2, _, h⟩ | ⟨_, T, _, h⟩
  · rw [h] at herr
    simp at herr
  · rw [h]
    simp only
    rw [(generate_frame env uid (missWorld env uid w)).1, (missWorld_frame env uid w).1]
  · rw [h] at herr
    simp at herr

theorem proxyDirector_known (env : Env) (req : Request) (w : World) (target : URL)
    (tls : ConnectionState) (cert : Certificate) (rest : List Certificate) (user : User)
    (hurl : env.urlParse env.upstreamURL = some target) (htls : req.TLS = some tls)
    (hcerts : tls.PeerCertificates = cert :: rest)
    (huser : userMap cert.CommonName = some user) :
    (proxyDirector env req w).isReturned = true
      ∧ (proxyDirector env req w).world = (getOrGenerateToken env user.ID w).2
      ∧ (proxyDirector env req w).req.TLS = req.TLS
      ∧ (∀ e, (getOrGenerateToken env user.ID w).1.2 = some e →
          (proxyDirector env req w).req.Header = req.Header)
      ∧ (∀ T, (getOrGenerateToken env user.ID w).1 = (T, none) →
          (proxyDirector env req w).req.Header = injected req.Header user.Username T) := by
  rcases hg : (getOrGenerateToken env user.ID w).1 with ⟨s, _ | e⟩
  · rw [proxyDirector_inject env req w target tls cert rest user s hurl htls hcerts huser hg]
    refine ⟨rfl, rfl, rfl, ?_, ?_⟩
    · intro e he
      simp at he
    · intro T hT
      simp only [Prod.mk.injEq, and_true] at hT
      subst hT
      rfl
  · have hg2 : (getOrGenerateToken env user.ID w).1.2 = some e := by rw [hg]
    rw [proxyDirector_token_error env req w target tls cert rest user e hurl htls hcerts
      huser hg2]
    refine ⟨rfl, rfl, rfl, ?_, ?_⟩
    · intro _ _
      rfl
    · intro T hT
      simp at hT

theorem proxyDirector_returns_iff (env : Env) (req : Request) (w : World) :
    (proxyDirector env req w).isReturned = true ↔ env.urlParse env.upstreamURL ≠ none := by
  cases hurl : env.urlParse env.upstreamURL with
  | none =>
    rw [proxyDirector_unparsable env req w hurl]
    simp [Outcome.isReturned]
  | some target =>
    simp only [ne_eq, reduceCtorEq, not_false_eq_true, iff_true]
    cases htls : req.TLS with
    | none => rw [proxyDirector_no_tls env req w target hurl htls]; rfl
    | some tls =>
      cases hcerts : tls.PeerCertificates with
      | nil => rw [proxyDirector_no_cert env req w target tls hurl htls hcerts]; rfl
      | cons cert rest =>
        cases huser : userMap cert.CommonName with
        | none =>
          rw [proxyDirector_unknown env req w target tls cert rest hurl htls hcerts huser]; rfl
        | some user =>
          exact (proxyDirector_known env req w target tls cert rest user hurl htls hcerts
            huser).1

theorem checkCache_some (env : Env) (uid : Int) (w : World) (tok : String)
    (h : (checkCache env uid w).1 = some tok) :
    ∃ item, w.items uid = some item ∧ item.Token = tok := by
  cases hi : w.items uid with
  | none =>
    rw [checkCache_absent env uid w hi] at h
    simp at h
  | some item =>
    by_cases hf : env.clock w.reads < item.Expiry
    · rw [checkCache_fresh env uid w item hi hf] at h
      simp only [Option.some.injEq] at h
      exact ⟨item, rfl, h⟩
    · rw [checkCache_stale env uid w item hi hf] at h
      simp at h

theorem getOrGenerateToken_ok_entry (env : Env) (uid : Int) (w : World) (T : String)
    (h : (getOrGenerateToken env uid w).1 = (T, none)) :
    ∃ item, (getOrGenerateToken env uid w).2.items uid = some item ∧ item.Token = T := by
  rcases getOrGenerateToken_cases env uid w with ⟨tok, hc, hh⟩ | ⟨_, e, _, hh⟩ | ⟨hc, T2, hg, _⟩
  · obtain ⟨item, hi, ht⟩ := checkCache_some env uid w tok hc
    rw [hh] at h ⊢
    simp only [Prod.mk.injEq, and_true] at h
    exact ⟨item, by simp only [(checkCache_items env uid w).1, hi], ht.trans h⟩
  · rw [hh] at h
    simp at h
  · have hst := getOrGenerateToken_store env uid w T2 hc hg
    rw [hst] at h ⊢
    simp only [Prod.mk.injEq, and_true] at h
    subst h
    exact ⟨_, Function.update_same _ _ _, rfl⟩

/-! ## The cache contract (C1, C2, C3) -/

/-- C1 (cache miss).  When the user has no entry, or an entry with `¬ now < Expiry` at the
clock reading of the check, and the issuer call returns `T` without error, then
`getOrGenerateToken` returns `(T, nil)`, exactly one request has been handed to `client.Do`
(the one built for this user), and the cache is the prior cache with the entry of `userID`
replaced by `{Token: T, Expiry: storeTime + 23h}`, `storeTime` being the last clock reading
of the call (main.go 196); all other entries are as before. -/
theorem getOrGenerateToken_miss (env : Env) (uid : Int) (w : World) (T : String)
    (hmiss : ∀ item, w.items uid = some item → ¬ env.clock w.reads < item.Expiry)
    (hissue : (generateImpersonationToken env uid (missWorld env uid w)).1 = (T, none)) :
    (getOrGenerateToken env uid w).1 = (T, none)
      ∧ (getOrGenerateToken env uid w).2.calls
          = issuerRequest env uid (missWorld env uid w) :: w.calls
      ∧ (getOrGenerateToken env uid w).2.items
          = Function.update w.items uid
              (some { Token := T
                      Expiry := env.clock ((getOrGenerateToken env uid w).2.reads - 1)
                        + 23 * Hour })
      ∧ ∀ other, other ≠ uid → (getOrGenerateToken env uid w).2.items other = w.items other := by
  have hc := checkCache_miss env uid w hmiss
  have hst := getOrGenerateToken_store env uid w T hc hissue
  have hcalls := generate_ok_calls env uid (missWorld env uid w) T hissue
  have hfr := generate_frame env uid (missWorld env uid w)
  have hmw := missWorld_frame env uid w
  rw [hst]
  refine ⟨rfl, ?_, ?_, ?_⟩
  · simp only [hcalls, hmw.2]
  · simp only [hfr.1, hmw.1, Nat.add_sub_cancel]
  · intro other hne
    simp only [hfr.1, hmw.1, Function.update_noteq hne]

/-- C1 at the boundary `now = Expiry`: the just-expired entry of user 123 is replaced by the
token of the mock upstream. -/
theorem getOrGenerateToken_miss_witness :
    (getOrGenerateToken (testEnv (mockGitLabServer "test-admin-token")) 123 staleWorld).1
        = ("mock-token-12345", none)
      ∧ (getOrGenerateToken (testEnv (mockGitLabServer "test-admin-token")) 123 staleWorld).2.calls
          = issuerRequest (testEnv (mockGitLabServer "test-admin-token")) 123
              (missWorld (testEnv (mockGitLabServer "test-admin-token")) 123 staleWorld)
            :: staleWorld.calls
      ∧ (getOrGenerateToken (testEnv (mockGitLabServer "test-admin-token")) 123 staleWorld).2.items
          = Function.update staleWorld.items 123
              (some { Token := "mock-token-12345"
                      Expiry := (testEnv (mockGitLabServer "test-admin-token")).clock
                          ((getOrGenerateToken (testEnv (mockGitLabServer "test-admin-token")) 123
                            staleWorld).2.reads - 1)
                        + 23 * Hour })
      ∧ ∀ other, other ≠ 123 →
          (getOrGenerateToken (testEnv (mockGitLabServer "test-admin-token")) 123
            staleWorld).2.items other = staleWorld.items other :=
  getOrGenerateToken_miss (testEnv (mockGitLabServer "test-admin-token")) 123 staleWorld
    "mock-token-12345"
    (by
      intro item h
      have hi : item = { Token := "old-token", Expiry := 0 } := by
        simpa [staleWorld] using h.symm
      subst hi
      decide)
    (by decide)

/-- C2 (cache hit).  When the user has an entry with `now < Expiry` at the clock reading of
the check, `getOrGenerateToken` returns the cached `Token` with a nil error; the only state
that changes is the clock position and the hit counter: no request is handed to
`client.Do`, whatever the upstream would answer, and the cache is unchanged. -/
theorem getOrGenerateToken_hit_cached (env : Env) (uid : Int) (w : World) (item : cachedToken)
    (hentry : w.items uid = some item) (hfresh : env.clock w.reads < item.Expiry) :
    getOrGenerateToken env uid w
        = ((item.Token, none), { w with reads := w.reads + 1, cacheHits := w.cacheHits + 1 })
      ∧ (getOrGenerateToken env uid w).2.items = w.items
      ∧ (getOrGenerateToken env uid w).2.calls = w.calls := by
  have h := getOrGenerateToken_hit env uid w _ _ (checkCache_fresh env uid w item hentry hfresh)
  rw [h]
  exact ⟨rfl, rfl, rfl⟩

/-- C2 on the second call of `TestGetOrGenerateToken`, with an upstream that is down. -/
theorem getOrGenerateToken_hit_cached_witness :
    getOrGenerateToken (testEnv unreachable) 123 freshWorld
        = (("cached-token-999", none),
            { freshWorld with reads := freshWorld.reads + 1
                              cacheHits := freshWorld.cacheHits + 1 })
      ∧ (getOrGenerateToken (testEnv unreachable) 123 freshWorld).2.items = freshWorld.items
      ∧ (getOrGenerateToken (testEnv unreachable) 123 freshWorld).2.calls = freshWorld.calls :=
  getOrGenerateToken_hit_cached (testEnv unreachable) 123 freshWorld
    { Token := "cached-token-999", Expiry := 1 * Hour } (by rfl) (by decide)

/-- C3 (issuer failure).  When the cache check fails (entry absent or expired) and the issuer
call returns an error, `getOrGenerateToken` returns `("", err)` and the cache is exactly the
cache before the call. -/
theorem getOrGenerateToken_issuer_failure (env : Env) (uid : Int) (w : World) (e : Err)
    (hmiss : ∀ item, w.items uid = some item → ¬ env.clock w.reads < item.Expiry)
    (hfail : (generateImpersonationToken env uid (missWorld env uid w)).1.2 = some e) :
    (getOrGenerateToken env uid w).1 = ("", some e)
      ∧ (getOrGenerateToken env uid w).2.items = w.items := by
  have hc := checkCache_miss env uid w hmiss
  rw [getOrGenerateToken_fail env uid w e hc hfail]
  exact ⟨rfl, by rw [(generate_frame env uid (missWorld env uid w)).1, (missWorld_frame env uid w).1]⟩

/-- C3 with no entry and an upstream that times out. -/
theorem getOrGenerateToken_issuer_failure_witness :
    (getOrGenerateToken (testEnv unreachable) 123 emptyWorld).1
        = ("", some (Err.transport "context deadline exceeded"))
      ∧ (getOrGenerateToken (testEnv unreachable) 123 emptyWorld).2.items = emptyWorld.items :=
  getOrGenerateToken_issuer_failure (testEnv unreachable) 123 emptyWorld
    (Err.transport "context deadline exceeded")
    (by intro item h; simp [emptyWorld] at h)
    (by decide)

/-! ## The request director (C4, C5, C6, C7) -/

/-- C4 (header injection).  For a request whose first peer certificate carries a common name
that `userMap` maps to the principal `user`, in a run that reaches step 2 (the upstream URL
parsed): if `getOrGenerateToken(user.ID)` yields `T` with a nil error, then `proxyDirector`
returns and afterwards `PRIVATE-TOKEN` has the single value `T`, `Authorization` has the
single value `"Basic " + base64(Username:T)`, base64-decoding the part of that value after
`"Basic "` gives back the bytes of `Username:T`, and every other key of the header map is as
before. -/
theorem proxyDirector_injects (env : Env) (req : Request) (w : World) (target : URL)
    (tls : ConnectionState) (cert : Certificate) (rest : List Certificate) (user : User)
    (T : String)
    (hurl : env.urlParse env.upstreamURL = some target) (htls : req.TLS = some tls)
    (hcerts : tls.PeerCertificates = cert :: rest) (huser : userMap cert.CommonName = some user)
    (htok : (getOrGenerateToken env user.ID w).1 = (T, none)) :
    (proxyDirector env req w).isReturned = true
      ∧ (proxyDirector env req w).req.Header.Values "PRIVATE-TOKEN" = [T]
      ∧ (proxyDirector env req w).req.Header.Values "Authorization"
          = ["Basic " ++ EncodeToString (bytesOf (user.Username ++ ":" ++ T))]
      ∧ DecodeString (afterBasic ((proxyDirector env req w).req.Header.Get "Authorization"))
          = some (bytesOf (user.Username ++ ":" ++ T))
      ∧ ∀ key, key ≠ "Private-Token" → key ≠ "Authorization" →
          (proxyDirector env req w).req.Header key = req.Header key := by
  rw [proxyDirector_inject env req w target tls cert rest user T hurl htls hcerts huser htok]
  have hv := injected_values req.Header user.Username T
  refine ⟨rfl, hv.1, hv.2.1, ?_, hv.2.2.2.2⟩
  simp only [Outcome.req]
  rw [hv.2.2.2.1, afterBasic_basic]
  exact DecodeString_EncodeToString _

/-- C4 on the scenario of the specification: claim `alice` (principal 3, `alice`) and an
upstream issuing `tok-A`; the `Authorization` value is `Basic YWxpY2U6dG9rLUE=`. -/
theorem proxyDirector_injects_witness :
    ((proxyDirector (testEnv (issuing "tok-A")) (testRequest "alice") emptyWorld).isReturned = true
      ∧ (proxyDirector (testEnv (issuing "tok-A")) (testRequest "alice")
            emptyWorld).req.Header.Values "PRIVATE-TOKEN" = ["tok-A"]
      ∧ (proxyDirector (testEnv (issuing "tok-A")) (testRequest "alice")
            emptyWorld).req.Header.Values "Authorization"
          = ["Basic " ++ EncodeToString (bytesOf ("alice" ++ ":" ++ "tok-A"))]
      ∧ DecodeString (afterBasic ((proxyDirector (testEnv (issuing "tok-A")) (testRequest "alice")
            emptyWorld).req.Header.Get "Authorization"))
          = some (bytesOf ("alice" ++ ":" ++ "tok-A"))
      ∧ ∀ key, key ≠ "Private-Token" → key ≠ "Authorization" →
          (proxyDirector (testEnv (issuing "tok-A")) (testRequest "alice")
            emptyWorld).req.Header key = (testRequest "alice").Header key)
      ∧ (proxyDirector (testEnv (issuing "tok-A")) (testRequest "alice")
            emptyWorld).req.Header.Get "PRIVATE-TOKEN" = "tok-A"
      ∧ (proxyDirector (testEnv (issuing "tok-A")) (testRequest "alice")
            emptyWorld).req.Header.Get "Authorization" = "Basic YWxpY2U6dG9rLUE="
      ∧ DecodeString "YWxpY2U6dG9rLUE=" = some (bytesOf "alice:tok-A") :=
  ⟨proxyDirector_injects (testEnv (issuing "tok-A")) (testRequest "alice") emptyWorld
      { Scheme := "http", Host := "127.0.0.1:8080" }
      { PeerCertificates := [{ CommonName := "alice" }] } { CommonName := "alice" } []
      { ID := 3, Username := "alice" } "tok-A" rfl rfl rfl (by decide) (by decide),
    by decide, by decide, by decide⟩

/-- C5 (failure paths leave the request and the cache alone).  Whatever the environment:
(1) with no TLS state, or an empty peer-certificate list, the header map is unchanged and
the whole world is unchanged (no clock reading, no counter, no upstream call, same cache);
(2) the same when the common name of the first certificate is not a key of `userMap`;
(3) when `getOrGenerateToken` returns an error for the mapped user, the header map and the
cache are unchanged. -/
theorem proxyDirector_failure_paths (env : Env) (req : Request) (w : World) :
    ((req.TLS = none ∨ ∃ tls, req.TLS = some tls ∧ tls.PeerCertificates = []) →
        (proxyDirector env req w).req.Header = req.Header
          ∧ (proxyDirector env req w).world = w)
      ∧ (∀ tls cert rest, req.TLS = some tls → tls.PeerCertificates = cert :: rest →
          userMap cert.CommonName = none →
          (proxyDirector env req w).req.Header = req.Header
            ∧ (proxyDirector env req w).world = w)
      ∧ (∀ tls cert rest user e, req.TLS = some tls → tls.PeerCertificates = cert :: rest →
          userMap cert.CommonName = some user →
          (getOrGenerateToken env user.ID w).1.2 = some e →
          (proxyDirector env req w).req.Header = req.Header
            ∧ (proxyDirector env req w).world.items = w.items) := by
  cases hurl : env.urlParse env.upstreamURL with
  | none =>
    rw [proxyDirector_unparsable env req w hurl]
    exact ⟨fun _ => ⟨rfl, rfl⟩, fun _ _ _ _ _ _ => ⟨rfl, rfl⟩,
      fun _ _ _ _ _ _ _ _ _ => ⟨rfl, rfl⟩⟩
  | some target =>
    refine ⟨?_, ?_, ?_⟩
    · rintro (htls | ⟨tls, htls, hcerts⟩)
      · rw [proxyDirector_no_tls env req w target hurl htls]
        exact ⟨rfl, rfl⟩
      · rw [proxyDirector_no_cert env req w target tls hurl htls hcerts]
        exact ⟨rfl, rfl⟩
    · intro tls cert rest htls hcerts huser
      rw [proxyDirector_unknown env req w target tls cert rest hurl htls hcerts huser]
      exact ⟨rfl, rfl⟩
    · intro tls cert rest user e htls hcerts huser herr
      rw [proxyDirector_token_error env req w target tls cert rest user e hurl htls hcerts
        huser herr]
      exact ⟨rfl, getOrGenerateToken_error_items env user.ID w e herr⟩

/-- C5 on three requests: one without TLS state, one presenting `unknown-hacker`, and one
presenting `alice` while the upstream times out. -/
theorem proxyDirector_failure_paths_witness :
    ((proxyDirector (testEnv unreachable) plainRequest emptyWorld).req.Header
          = plainRequest.Header
        ∧ (proxyDirector (testEnv unreachable) plainRequest emptyWorld).world = emptyWorld)
      ∧ ((proxyDirector (testEnv unreachable) (testRequest "unknown-hacker")
              emptyWorld).req.Header = (testRequest "unknown-hacker").Header
        ∧ (proxyDirector (testEnv unreachable) (testRequest "unknown-hacker")
              emptyWorld).world = emptyWorld)
      ∧ ((proxyDirector (testEnv unreachable) (testRequest "alice") emptyWorld).req.Header
          = (testRequest "alice").Header
        ∧ (proxyDirector (testEnv unreachable) (testRequest "alice") emptyWorld).world.items
          = emptyWorld.items) :=
  ⟨(proxyDirector_failure_paths (testEnv unreachable) plainRequest emptyWorld).1 (Or.inl rfl),
    (proxyDirector_failure_paths (testEnv unreachable) (testRequest "unknown-hacker")
      emptyWorld).2.1 { PeerCertificates := [{ CommonName := "unknown-hacker" }] }
      { CommonName := "unknown-hacker" } [] rfl rfl (by decide),
    (proxyDirector_failure_paths (testEnv unreachable) (testRequest "alice")
      emptyWorld).2.2 { PeerCertificates := [{ CommonName := "alice" }] }
      { CommonName := "alice" } [] { ID := 3, Username := "alice" }
      (Err.transport "context deadline exceeded") rfl rfl (by decide) (by decide)⟩

/-- C6 as stated fails: `unknown-hacker` is not a key of `userMap`, yet a request of that
client which arrives with `PRIVATE-TOKEN` and `Authorization` set leaves `proxyDirector`
with both still set. -/
theorem proxyDirector_unknown_keeps_inbound_headers :
    userMap "unknown-hacker" = none
      ∧ (proxyDirector (testEnv unreachable) smugglingRequest emptyWorld).isReturned = true
      ∧ (proxyDirector (testEnv unreachable) smugglingRequest emptyWorld).req.Header.Get
          "PRIVATE-TOKEN" = "client-supplied"
      ∧ (proxyDirector (testEnv unreachable) smugglingRequest emptyWorld).req.Header.Get
          "Authorization" = "Basic Zm9vOmJhcg=="
      ∧ ¬ ((proxyDirector (testEnv unreachable) smugglingRequest emptyWorld).req.Header.Get
              "PRIVATE-TOKEN" = ""
            ∧ (proxyDirector (testEnv unreachable) smugglingRequest emptyWorld).req.Header.Get
              "Authorization" = "") := by
  decide

/-- C6, amended.  For a request whose first peer certificate carries a common name that is
not a key of `userMap` (exact string match), `proxyDirector` sets no authentication header:
the header map and the world are unchanged, so `PRIVATE-TOKEN` and `Authorization` read
empty on the outbound request whenever they read empty on the inbound one. -/
theorem proxyDirector_unknown_identity (env : Env) (req : Request) (w : World)
    (tls : ConnectionState) (cert : Certificate) (rest : List Certificate)
    (htls : req.TLS = some tls) (hcerts : tls.PeerCertificates = cert :: rest)
    (hunknown : userMap cert.CommonName = none) :
    (proxyDirector env req w).req.Header = req.Header
      ∧ (proxyDirector env req w).world = w
      ∧ (req.Header.Get "PRIVATE-TOKEN" = "" →
          (proxyDirector env req w).req.Header.Get "PRIVATE-TOKEN" = "")
      ∧ (req.Header.Get "Authorization" = "" →
          (proxyDirector env req w).req.Header.Get "Authorization" = "") := by
  have hh : (proxyDirector env req w).req.Header = req.Header
      ∧ (proxyDirector env req w).world = w := by
    cases hurl : env.urlParse env.upstreamURL with
    | none =>
      rw [proxyDirector_unparsable env req w hurl]
      exact ⟨rfl, rfl⟩
    | some target =>
      rw [proxyDirector_unknown env req w target tls cert rest hurl htls hcerts hunknown]
      exact ⟨rfl, rfl⟩
  refine ⟨hh.1, hh.2, ?_, ?_⟩ <;> intro h <;> rw [hh.1] <;> exact h

/-- C6 amended, on the scenario of the specification: claim `unknown-hacker`, a request
with no headers, and the mock upstream. -/
theorem proxyDirector_unknown_identity_witness :
    (proxyDirector (testEnv (mockGitLabServer "test-admin-token")) (testRequest "unknown-hacker")
        emptyWorld).req.Header.Get "PRIVATE-TOKEN" = ""
      ∧ (proxyDirector (testEnv (mockGitLabServer "test-admin-token"))
          (testRequest "unknown-hacker") emptyWorld).req.Header.Get "Authorization" = "" :=
  have h := proxyDirector_unknown_identity (testEnv (mockGitLabServer "test-admin-token"))
    (testRequest "unknown-hacker") emptyWorld
    { PeerCertificates := [{ CommonName := "unknown-hacker" }] }
    { CommonName := "unknown-hacker" } [] rfl rfl (by decide)
  ⟨h.2.2.1 (by decide), h.2.2.2 (by decide)⟩

/-- C7 fails on the code: with a non-empty upstream URL that does not parse, `proxyDirector`
does not return; it panics on the nil `target` at line 250, before looking at the request. -/
theorem proxyDirector_panics_on_unparsable_url :
    brokenEnv.upstreamURL ≠ ""
      ∧ brokenEnv.gitlabAdminToken ≠ ""
      ∧ brokenEnv.urlParse brokenEnv.upstreamURL = none
      ∧ (proxyDirector brokenEnv (testRequest "alice") emptyWorld).isReturned = false
      ∧ (proxyDirector brokenEnv plainRequest emptyWorld).isReturned = false := by
  decide

/-! ## Calling the director twice (C9) -/

/-- C9 as stated fails twice.  (a) With the upstream down and an empty cache, two calls for
`alice` leave `PRIVATE-TOKEN` and `Authorization` without any value, not with exactly one.
(b) When the first call succeeds at `t1 = 0` by a cache hit on an entry that expires at 1 s,
the second call at `t2 = 1 s < t1 + 23h` invokes the issuer and replaces the headers. -/
theorem twice_not_always_consistent_or_cached :
    ((twice (testEnv unreachable) (testRequest "alice") emptyWorld).req.Header.Values
          "PRIVATE-TOKEN" = []
        ∧ (twice (testEnv unreachable) (testRequest "alice") emptyWorld).req.Header.Values
          "Authorization" = [])
      ∧ ((getOrGenerateToken (testEnv (issuing "tok-new")) 3 expiringWorld).1 = ("tok-old", none)
        ∧ (testEnv (issuing "tok-new")).clock expiringWorld.reads = 0
        ∧ (testEnv (issuing "tok-new")).clock
            (proxyDirector (testEnv (issuing "tok-new")) (testRequest "alice")
              expiringWorld).world.reads = 1 * Second
        ∧ (0 : Int) ≤ 1 * Second ∧ 1 * Second < 0 + 23 * Hour
        ∧ (proxyDirector (testEnv (issuing "tok-new")) (testRequest "alice")
              expiringWorld).world.calls.length = 0
        ∧ (twice (testEnv (issuing "tok-new")) (testRequest "alice")
              expiringWorld).world.calls.length = 1
        ∧ (proxyDirector (testEnv (issuing "tok-new")) (testRequest "alice")
              expiringWorld).req.Header.Get "PRIVATE-TOKEN" = "tok-old"
        ∧ (twice (testEnv (issuing "tok-new")) (testRequest "alice")
              expiringWorld).req.Header.Get "PRIVATE-TOKEN" = "tok-new") := by
  decide

/-- C9, amended.  For a request whose claim `userMap` maps to `user`, in runs where the
upstream URL parses, with the second call run on the request and world the first call left:
(a) if at least one of the two calls obtains a token, then after the second call
`PRIVATE-TOKEN` and `Authorization` each hold exactly one value and both carry the same
token `T'`;
(b) if the first call obtained a token and the clock reading `t2` of the second call is
before the `Expiry` of the entry the first call left for the user, the second call hands no
request to `client.Do` and the headers after it equal the headers after the first call;
(c) in particular so when the first call stored the entry at `t1` (a cache miss) and
`t2 < t1 + 23h`. -/
theorem twice_consistent (env : Env) (req : Request) (w : World) (target : URL)
    (tls : ConnectionState) (cert : Certificate) (rest : List Certificate) (user : User)
    (hurl : env.urlParse env.upstreamURL = some target) (htls : req.TLS = some tls)
    (hcerts : tls.PeerCertificates = cert :: rest)
    (huser : userMap cert.CommonName = some user) :
    (((getOrGenerateToken env user.ID w).1.2 = none
          ∨ (getOrGenerateToken env user.ID (proxyDirector env req w).world).1.2 = none) →
        ∃ T, (twice env req w).req.Header.Values "PRIVATE-TOKEN" = [T]
          ∧ (twice env req w).req.Header.Values "Authorization"
              = ["Basic " ++ EncodeToString (bytesOf (user.Username ++ ":" ++ T))])
      ∧ ((getOrGenerateToken env user.ID w).1.2 = none →
          (∃ item, (proxyDirector env req w).world.items user.ID = some item
            ∧ env.clock (proxyDirector env req w).world.reads < item.Expiry) →
          (twice env req w).world.calls = (proxyDirector env req w).world.calls
            ∧ (twice env req w).req.Header = (proxyDirector env req w).req.Header)
      ∧ ((getOrGenerateToken env user.ID w).1.2 = none →
          (checkCache env user.ID w).1 = none →
          env.clock (proxyDirector env req w).world.reads
            < env.clock ((proxyDirector env req w).world.reads - 1) + 23 * Hour →
          (twice env req w).world.calls = (proxyDirector env req w).world.calls
            ∧ (twice env req w).req.Header = (proxyDirector env req w).req.Header) := by
  obtain ⟨_, hw1, htls1, herr1, hok1⟩ :=
    proxyDirector_known env req w target tls cert rest user hurl htls hcerts huser
  obtain ⟨_, hw2, _, herr2, hok2⟩ :=
    proxyDirector_known env (proxyDirector env req w).req (proxyDirector env req w).world
      target tls cert rest user hurl (htls1.trans htls) hcerts huser
  have first_ok : (getOrGenerateToken env user.ID w).1.2 = none →
      (getOrGenerateToken env user.ID w).1 = ((getOrGenerateToken env user.ID w).1.1, none) := by
    intro h
    exact Prod.ext rfl h
  -- part (b), used for (c) as well
  have partB : (getOrGenerateToken env user.ID w).1.2 = none →
      (∃ item, (proxyDirector env req w).world.items user.ID = some item
        ∧ env.clock (proxyDirector env req w).world.reads < item.Expiry) →
      (twice env req w).world.calls = (proxyDirector env req w).world.calls
        ∧ (twice env req w).req.Header = (proxyDirector env req w).req.Header := by
    intro h1 ⟨item, hitem, hfresh⟩
    have h1e := first_ok h1
    obtain ⟨item2, hitem2, htoken⟩ := getOrGenerateToken_ok_entry env user.ID w _ h1e
    rw [← hw1, hitem] at hitem2
    simp only [Option.some.injEq] at hitem2
    subst hitem2
    have hhit := getOrGenerateToken_hit env user.ID (proxyDirector env req w).world _ _
      (checkCache_fresh env user.ID (proxyDirector env req w).world item hitem hfresh)
    have h2e : (getOrGenerateToken env user.ID (proxyDirector env req w).world).1
        = ((getOrGenerateToken env user.ID w).1.1, none) := by
      rw [hhit, htoken]
    unfold twice
    refine ⟨?_, ?_⟩
    · rw [hw2, hhit]
    · rw [hok2 _ h2e, hok1 _ h1e, injected_injected]
  refine ⟨?_, partB, ?_⟩
  · intro hor
    unfold twice
    rcases hg2 : (getOrGenerateToken env user.ID (proxyDirector env req w).world).1
      with ⟨s2, _ | e2⟩
    · have hv := injected_values (proxyDirector env req w).req.Header user.Username s2
      rw [hok2 s2 hg2]
      exact ⟨s2, hv.1, hv.2.1⟩
    · have hg2e : (getOrGenerateToken env user.ID (proxyDirector env req w).world).1.2
          = some e2 := by rw [hg2]
      have h1 : (getOrGenerateToken env user.ID w).1.2 = none := by
        rcases hor with h | h
        · exact h
        · rw [hg2e] at h
          simp at h
      have hv := injected_values req.Header user.Username (getOrGenerateToken env user.ID w).1.1
      rw [herr2 e2 hg2e, hok1 _ (first_ok h1)]
      exact ⟨_, hv.1, hv.2.1⟩
  · intro h1 hmiss hlt
    apply partB h1
    have hgen : ∃ T, (generateImpersonationToken env user.ID (missWorld env user.ID w)).1
        = (T, none) := by
      rcases getOrGenerateToken_cases env user.ID w with ⟨tok, hc, _⟩ | ⟨_, e, _, hh⟩ | ⟨_, T, hg, _⟩
      · rw [hmiss] at hc
        simp at hc
      · rw [hh] at h1
        simp at h1
      · exact ⟨T, hg⟩
    obtain ⟨T, hg⟩ := hgen
    have hst := getOrGenerateToken_store env user.ID w T hmiss hg
    rw [hw1] at hlt ⊢
    rw [hst] at hlt ⊢
    simp only [Nat.add_sub_cancel] at hlt
    exact ⟨_, Function.update_same _ _ _, hlt⟩

/-- C9 amended on `alice`, an empty cache and an upstream issuing `tok-A`: the first call
stores the token at `t1 = 2 s`, the second runs at `t2 = 3 s`. -/
theorem twice_consistent_witness :
    (∃ T, (twice (testEnv (issuing "tok-A")) (testRequest "alice") emptyWorld).req.Header.Values
          "PRIVATE-TOKEN" = [T]
        ∧ (twice (testEnv (issuing "tok-A")) (testRequest "alice") emptyWorld).req.Header.Values
          "Authorization" = ["Basic " ++ EncodeToString (bytesOf ("alice" ++ ":" ++ T))])
      ∧ ((twice (testEnv (issuing "tok-A")) (testRequest "alice") emptyWorld).world.calls
          = (proxyDirector (testEnv (issuing "tok-A")) (testRequest "alice")
              emptyWorld).world.calls
        ∧ (twice (testEnv (issuing "tok-A")) (testRequest "alice") emptyWorld).req.Header
          = (proxyDirector (testEnv (issuing "tok-A")) (testRequest "alice")
              emptyWorld).req.Header) :=
  have h := twice_consistent (testEnv (issuing "tok-A")) (testRequest "alice") emptyWorld
    { Scheme := "http", Host := "127.0.0.1:8080" }
    { PeerCertificates := [{ CommonName := "alice" }] } { CommonName := "alice" } []
    { ID := 3, Username := "alice" } rfl rfl rfl (by decide)
  ⟨h.1 (Or.inl (by decide)), h.2.2 (by decide) (by decide) (by decide)⟩

/-! ## The safety margin (C8) -/

/-- The margin holds when the upstream's calendar is not ahead of the proxy's zone.  On a cache
miss with a successful issuer call, let `t0` be the clock reading from which the request
computes `expires_at` (main.go 213) and `t1` the reading at which the entry is stored
(main.go 196), with `t1 < t0 + 1h` and a four-digit year.  The deadline is read off the date
text that was sent: if the upstream's calendar offset is at most the proxy's zone offset,
then `Expiry = t1 + 23h < t0 + 24h < deadline`, so every `now < Expiry` is before the
deadline. -/
theorem expiry_before_deadline_of_calendar_le (env : Env) (uid : Int) (w : World) (T : String)
    (calendarOffset : Int)
    (hmiss : ∀ item, w.items uid = some item → ¬ env.clock w.reads < item.Expiry)
    (hissue : (generateImpersonationToken env uid (missWorld env uid w)).1 = (T, none))
    (hdelay : env.clock ((missWorld env uid w).reads + 2)
      < env.clock (missWorld env uid w).reads + 1 * Hour)
    (hyear0 : 0 ≤ (civilFromDays (dayOf env (env.clock (missWorld env uid w).reads
      + 24 * Hour))).1)
    (hyear1 : (civilFromDays (dayOf env (env.clock (missWorld env uid w).reads
      + 24 * Hour))).1 ≤ 9999)
    (hzone : calendarOffset ≤ env.zoneOffset) :
    ∃ req deadline,
      (getOrGenerateToken env uid w).2.calls = req :: w.calls
        ∧ validUntil calendarOffset req.Body.expires_at = some deadline
        ∧ (getOrGenerateToken env uid w).2.items uid
            = some { Token := T
                     Expiry := env.clock ((missWorld env uid w).reads + 2) + 23 * Hour }
        ∧ env.clock ((missWorld env uid w).reads + 2) + 23 * Hour
            < env.clock (missWorld env uid w).reads + 24 * Hour
        ∧ env.clock (missWorld env uid w).reads + 24 * Hour < deadline
        ∧ ∀ now : Time, now < env.clock ((missWorld env uid w).reads + 2) + 23 * Hour →
            now < deadline := by
  have hc := checkCache_miss env uid w hmiss
  have hst := getOrGenerateToken_store env uid w T hc hissue
  have hcalls := generate_ok_calls env uid (missWorld env uid w) T hissue
  have hfr := generate_frame env uid (missWorld env uid w)
  have hmw := missWorld_frame env uid w
  have hmargin : env.clock ((missWorld env uid w).reads + 2) + 23 * Hour
      < env.clock (missWorld env uid w).reads + 24 * Hour := margin_lt _ _ hdelay
  have hparse := parseDate_formatDay _ hyear0 hyear1
  have hdead : env.clock (missWorld env uid w).reads + 24 * Hour
      < (dayOf env (env.clock (missWorld env uid w).reads + 24 * Hour) + 1) * Day
          - calendarOffset :=
    lt_of_lt_of_le (lt_next_midnight _ env.zoneOffset) (sub_le_sub_left hzone _)
  refine ⟨issuerRequest env uid (missWorld env uid w), _, ?_, ?_, ?_, hmargin, hdead, ?_⟩
  · rw [hst]
    simp only [hcalls, hmw.2]
  · simp only [validUntil, issuerRequest, formatDate, hparse, Option.map_some']
  · rw [hst]
    simp only [hfr.2.1, Function.update_same]
  · intro now hnow
    exact lt_trans (lt_trans hnow hmargin) hdead

/-- The margin on the first call of `TestGetOrGenerateToken`, proxy and upstream both on a
UTC calendar: the request is built at `t0 = 0`, the entry stored at `t1 = 2 s`, the date sent
is read back as day 1, whose end is the deadline. -/
theorem expiry_before_deadline_same_calendar :
    ∃ req deadline,
      (getOrGenerateToken (testEnv (mockGitLabServer "test-admin-token")) 123 emptyWorld).2.calls
          = req :: emptyWorld.calls
        ∧ validUntil 0 req.Body.expires_at = some deadline
        ∧ (getOrGenerateToken (testEnv (mockGitLabServer "test-admin-token")) 123
              emptyWorld).2.items 123
            = some { Token := "mock-token-12345", Expiry := 2 * Second + 23 * Hour }
        ∧ 2 * Second + 23 * Hour < 0 * Second + 24 * Hour
        ∧ 0 * Second + 24 * Hour < deadline
        ∧ ∀ now : Time, now < 2 * Second + 23 * Hour → now < deadline :=
  expiry_before_deadline_of_calendar_le (testEnv (mockGitLabServer "test-admin-token")) 123
    emptyWorld "mock-token-12345" 0 (by intro item h; simp [emptyWorld] at h) (by decide)
    (by decide) (by decide) (by decide) (by decide)

/-- C8 fails on the code when the upstream's calendar is ahead of the proxy's zone.  With the
proxy five hours west of UTC and the request built at 2026-01-01 04:30:00 UTC, the date sent
is `2026-01-01` (the proxy's calendar date of `t0 + 24h`), which on a UTC calendar ends at
2026-01-02 00:00:00; the entry is stored with `Expiry` 2026-01-02 03:30:02 UTC, after that
deadline, and a call at 2026-01-02 02:30:00 UTC is answered from the cache without an
upstream call. -/
theorem stored_expiry_after_requested_day :
    (getOrGenerateToken easternEnv 3 emptyWorld).1 = ("tok-A", none)
      ∧ (getOrGenerateToken easternEnv 3 emptyWorld).2.calls.map (fun r => r.Body.expires_at)
          = ["2026-01-01"]
      ∧ validUntil 0 "2026-01-01" = some (20455 * Day)
      ∧ (getOrGenerateToken easternEnv 3 emptyWorld).2.items 3
          = some { Token := "tok-A", Expiry := 20455 * Day + 3 * Hour + 1802 * Second }
      ∧ 20455 * Day < 20455 * Day + 3 * Hour + 1802 * Second
      ∧ easternEnv.clock 2 < easternEnv.clock 0 + 1 * Hour
      ∧ easternEnv.clock (getOrGenerateToken easternEnv 3 emptyWorld).2.reads
          = 20455 * Day + 2 * Hour + 1800 * Second
      ∧ 20455 * Day ≤ 20455 * Day + 2 * Hour + 1800 * Second
      ∧ (getOrGenerateToken easternEnv 3 (getOrGenerateToken easternEnv 3 emptyWorld).2).1
          = ("tok-A", none)
      ∧ (getOrGenerateToken easternEnv 3
            (getOrGenerateToken easternEnv 3 emptyWorld).2).2.calls.length = 1 := by
  decide

/-! ## Issuer response handling (C10) -/

/-- C10 as stated fails: a 201 response whose body is the JSON object `{}` carries no token
field, yet `generateImpersonationToken` returns the empty token with a nil error,
`getOrGenerateToken` stores it, and `proxyDirector` injects it. -/
theorem generateImpersonationToken_accepts_empty_object :
    (generateImpersonationToken
        (testEnv fun _ _ => .response { StatusCode := 201, Body := some (.obj []) }) 3
        emptyWorld).1 = ("", none)
      ∧ ((getOrGenerateToken
          (testEnv fun _ _ => .response { StatusCode := 201, Body := some (.obj []) }) 3
          emptyWorld).2.items 3).isSome = true
      ∧ (proxyDirector
          (testEnv fun _ _ => .response { StatusCode := 201, Body := some (.obj []) })
          (testRequest "alice") emptyWorld).req.Header.Values "PRIVATE-TOKEN" = [""]
      ∧ (proxyDirector
          (testEnv fun _ _ => .response { StatusCode := 201, Body := some (.obj []) })
          (testRequest "alice") emptyWorld).req.Header.Values "Authorization"
          = ["Basic YWxpY2U6"] := by
  decide

/-- C10, amended.  When the issuer request is sent and the upstream answers `resp`:
(a) a token is returned without error only if the status is 201 and the body decodes into
`TokenResponse`, and the token is the decoded one;
(b) for a 201 response with body `{"token": s}` exactly `s` is returned;
(c) for every status other than 201, whatever the body, an error is returned;
(d) for every 201 response whose body does not decode (no well-formed JSON value, a value
that is neither an object nor null, a `token` member that is neither a string nor null) an
error is returned;
(e) in cases (c) and (d), a call of `getOrGenerateToken` that reached this issuer call on a
cache miss returns an error and leaves the cache as it was, and `proxyDirector` for a request
of that user leaves the header map as it was. -/
theorem issuer_response_handling (env : Env) (uid : Int) (w : World) (resp : Response)
    (hmiss : ∀ item, w.items uid = some item → ¬ env.clock w.reads < item.Expiry)
    (hurl : env.urlParse (issuerRequest env uid (missWorld env uid w)).URL ≠ none)
    (hresp : env.transport (missWorld env uid w).calls.length
      (issuerRequest env uid (missWorld env uid w)) = .response resp) :
    (∀ T, (generateImpersonationToken env uid (missWorld env uid w)).1 = (T, none) →
        resp.StatusCode = 201 ∧ decodeTokenResponse resp.Body = .ok { Token := T })
      ∧ (∀ s, resp.StatusCode = 201 → resp.Body = some (.obj [("token", .str s)]) →
          (generateImpersonationToken env uid (missWorld env uid w)).1 = (s, none))
      ∧ (resp.StatusCode ≠ 201 →
          (generateImpersonationToken env uid (missWorld env uid w)).1
            = ("", some (.status resp.StatusCode)))
      ∧ (resp.StatusCode = 201 → undecodable resp.Body = true →
          (generateImpersonationToken env uid (missWorld env uid w)).1 = ("", some .decode))
      ∧ ((resp.StatusCode ≠ 201 ∨ undecodable resp.Body = true) →
          (∃ e, (getOrGenerateToken env uid w).1 = ("", some e))
            ∧ (getOrGenerateToken env uid w).2.items = w.items
            ∧ ∀ (req : Request) (target : URL) (tls : ConnectionState) (cert : Certificate)
                (rest : List Certificate) (user : User),
                env.urlParse env.upstreamURL = some target → req.TLS = some tls →
                tls.PeerCertificates = cert :: rest → userMap cert.CommonName = some user →
                user.ID = uid →
                (proxyDirector env req w).req.Header = req.Header) := by
  have hgen := generate_response env uid (missWorld env uid w) resp hurl hresp
  have hc : resp.StatusCode ≠ 201 →
      (generateImpersonationToken env uid (missWorld env uid w)).1
        = ("", some (.status resp.StatusCode)) := by
    intro hs
    rw [hgen, if_pos hs]
  have hd : resp.StatusCode = 201 → undecodable resp.Body = true →
      (generateImpersonationToken env uid (missWorld env uid w)).1 = ("", some .decode) := by
    intro hs hu
    rw [hgen, if_neg (not_not.mpr hs), (decodeTokenResponse_error_iff resp.Body).mpr hu]
  refine ⟨?_, ?_, hc, hd, ?_⟩
  · intro T hT
    rw [hgen] at hT
    split at hT
    · simp at hT
    · rename_i hs
      refine ⟨not_not.mp hs, ?_⟩
      split at hT
      · simp at hT
      · rename_i r hr
        simp only [Prod.mk.injEq, and_true] at hT
        rw [hr, ← hT]
  · intro s hs hb
    rw [hgen, if_neg (not_not.mpr hs), hb, decodeTokenResponse_token]
  · intro hbad
    have hfail : ∃ e, (generateImpersonationToken env uid (missWorld env uid w)).1.2 = some e := by
      by_cases hs : resp.StatusCode = 201
      · rcases hbad with h | h
        · exact absurd hs h
        · exact ⟨_, by rw [hd hs h]⟩
      · exact ⟨_, by rw [hc hs]⟩
    obtain ⟨e, he⟩ := hfail
    have hgo := getOrGenerateToken_fail env uid w e (checkCache_miss env uid w hmiss) he
    have herr : (getOrGenerateToken env uid w).1.2 = some e := by rw [hgo]
    refine ⟨⟨e, by rw [hgo]⟩, getOrGenerateToken_error_items env uid w e herr, ?_⟩
    intro req target tls cert rest user hurl2 htls hcerts huser hid
    subst hid
    exact (proxyDirector_known env req w target tls cert rest user hurl2 htls hcerts
      huser).2.2.2.1 e herr

/-- C10 amended, on the mock upstream of `main_test.go`: with the expected admin token it
answers 201 and `{"token": "mock-token-12345"}`, with another one it answers 401. -/
theorem issuer_response_handling_witness :
    (generateImpersonationToken (testEnv (mockGitLabServer "test-admin-token")) 123
        (missWorld (testEnv (mockGitLabServer "test-admin-token")) 123 emptyWorld)).1
        = ("mock-token-12345", none)
      ∧ (generateImpersonationToken (testEnv (mockGitLabServer "rotated-admin-token")) 123
          (missWorld (testEnv (mockGitLabServer "rotated-admin-token")) 123 emptyWorld)).1
        = ("", some (Err.status 401))
      ∧ (getOrGenerateToken (testEnv (mockGitLabServer "rotated-admin-token")) 123
          emptyWorld).2.items = emptyWorld.items :=
  ⟨(issuer_response_handling (testEnv (mockGitLabServer "test-admin-token")) 123 emptyWorld
      { StatusCode := 201, Body := some (.obj [("token", .str "mock-token-12345")]) }
      (by intro item h; simp [emptyWorld] at h) (by decide) (by rfl)).2.1
        "mock-token-12345" rfl rfl,
    (issuer_response_handling (testEnv (mockGitLabServer "rotated-admin-token")) 123 emptyWorld
      { StatusCode := 401, Body := none }
      (by intro item h; simp [emptyWorld] at h) (by decide) (by rfl)).2.2.1 (by decide),
    ((issuer_response_handling (testEnv (mockGitLabServer "rotated-admin-token")) 123 emptyWorld
      { StatusCode := 401, Body := none }
      (by intro item h; simp [emptyWorld] at h) (by decide) (by rfl)).2.2.2.2
        (Or.inl (by decide))).2.1⟩

end GitlabMtls
